import Mathlib

/-!
Verification of the jaguar-wolf3d-extractor asset extractor.

Byte strings are modelled as `List Nat` (each entry a byte value 0..255);
Python integers are `Nat` or `Int` as the source dictates.  Each definition
is a shallow embedding of the Python function named in its doc comment.
-/

namespace Wolf3DExtractor

/-! ## RIFF chunk codec (`extractor/riff.py`) -/

/-- Source `riff._uint32_to_bytes`: `struct.pack("<I", value)` — four little-endian
bytes.  `struct.pack` raises for values at or above `2^32`; the reduction
`% 2^32` below only differs from the source on that error path. -/
def uint32_to_bytes (value : Nat) : List Nat :=
  [value % 256, value / 256 % 256, value / 65536 % 256, value / 16777216 % 256]

/-- Source `riff.make_chunk`: asserts the identifier has 4 bytes (modelled as the
`none` result), pads odd-length payloads with one zero byte, then emits
identifier, the little-endian length of the (padded) payload, and the
payload.  Note that the source computes `len(data)` only after padding. -/
def make_chunk (identifier data : List Nat) : Option (List Nat) :=
  if identifier.length = 4 then
    let padded := if data.length % 2 = 1 then data ++ [0] else data
    some (identifier ++ uint32_to_bytes padded.length ++ padded)
  else
    none

/-- Source `riff._make_list_chunk`: concatenates the sub-chunks, prepends the list
identifier, and wraps the result with the chunk identifier and a length
field counting the list identifier plus the concatenated data. -/
def make_list_chunk (chunk_identifier list_identifier : List Nat)
    (chunks : List (List Nat)) : Option (List Nat) :=
  if chunk_identifier.length = 4 ∧ list_identifier.length = 4 then
    let data := chunks.flatten
    some (chunk_identifier ++ uint32_to_bytes (data.length + list_identifier.length)
      ++ list_identifier ++ data)
  else
    none

/-! ## Lump decompressor (`WADFile._decompress` in `extractor/wad.py`) -/

/-- Failure modes of the decompressor: the source's `assert offset > 0`
(an `AssertionError`, which the spec calls `DecompressionError`) and
Python's `IndexError` on an out-of-range list access. -/
inductive DErr where
  | assertFail : DErr
  | indexError : DErr
deriving DecidableEq, Repr

/-- Reading `compressed_data[position]` at a nonnegative position;
past-the-end reads raise `IndexError` in Python. -/
def inputByte (data : List Nat) (pos : Nat) : Except DErr Nat :=
  match data[pos]? with
  | some b => .ok b
  | none => .error .indexError

/-- Python list indexing `output_data[i]` for a possibly negative `i`:
indices in `[-len, len)` are accepted, with negative indices addressing
from the end; anything else raises `IndexError`. -/
def pyListGet (xs : List Nat) (i : Int) : Except DErr Nat :=
  if 0 ≤ i ∧ i < xs.length then .ok (xs.getD i.toNat 0)
  else if -(xs.length : Int) ≤ i ∧ i < 0 then .ok (xs.getD (i + xs.length).toNat 0)
  else .error .indexError

/-- The copy loop of `WADFile._decompress`: `length` iterations of
`output_data.append(output_data[offset]); offset += 1`, each byte appended
to the output before the next copy source is read. -/
def copyLoop : Nat → List Nat → Int → Except DErr (List Nat)
  | 0, out, _ => .ok out
  | n + 1, out, src =>
    match pyListGet out src with
    | .ok b => copyLoop n (out ++ [b]) (src + 1)
    | .error e => .error e

/-- The inner `for _ in range(8)` loop of `WADFile._decompress`, processing
the remaining `k` flag bits least-significant first (`bit = flag & 1;
flag >>= 1`).  Returns the input position, the output so far, and whether
the end-of-stream sentinel was seen. -/
def processItems (data : List Nat) : Nat → Nat → Nat → List Nat →
    Except DErr (Nat × List Nat × Bool)
  | 0, _, pos, out => .ok (pos, out, false)
  | k + 1, flag, pos, out =>
    if flag % 2 = 1 then
      match inputByte data pos with
      | .error e => .error e
      | .ok b0 =>
        match inputByte data (pos + 1) with
        | .error e => .error e
        | .ok b1 =>
          if b1 &&& 0x0f = 0 then
            .ok (pos + 2, out, true)
          else if (b0 <<< 4) + ((b1 &&& 0xf0) >>> 4) = 0 then
            .error .assertFail
          else
            match copyLoop ((b1 &&& 0x0f) + 1) out
                ((out.length : Int) - ((b0 <<< 4) + ((b1 &&& 0xf0) >>> 4))) with
            | .ok out1 => processItems data k (flag / 2) (pos + 2) out1
            | .error e => .error e
    else
      match inputByte data pos with
      | .error e => .error e
      | .ok b => processItems data k (flag / 2) (pos + 1) (out ++ [b])

/-- The outer `while not finished` loop of `WADFile._decompress`, with
fuel.  Every iteration consumes at least the flag byte, so `data.length`
iterations would already have moved the position past the end of the
input, making the flag read raise; the fuel-exhausted result is therefore
the same `IndexError` and is in fact unreachable with the fuel used by
`decompress`. -/
def decompressLoop (data : List Nat) : Nat → Nat → List Nat → Except DErr (List Nat)
  | 0, _, _ => .error .indexError
  | fuel + 1, pos, out =>
    match inputByte data pos with
    | .error e => .error e
    | .ok flag =>
      match processItems data 8 flag (pos + 1) out with
      | .error e => .error e
      | .ok (pos1, out1, finished) =>
        if finished then .ok out1 else decompressLoop data fuel pos1 out1

/-- Source `WADFile._decompress`: starts with an empty output at input position 0. -/
def decompress (data : List Nat) : Except DErr (List Nat) :=
  decompressLoop data (data.length + 1) 0 []

end Wolf3DExtractor

namespace Wolf3DExtractor

theorem uint32_to_bytes_length (value : Nat) : (uint32_to_bytes value).length = 4 := rfl

/-- Layout helper shared by the chunk-codec results below. -/
theorem make_chunk_layout (identifier data : List Nat) (h : identifier.length = 4) :
    make_chunk identifier data =
      some (identifier
        ++ uint32_to_bytes (data.length + data.length % 2)
        ++ (if data.length % 2 = 1 then data ++ [0] else data)) := by
  unfold make_chunk
  rw [if_pos h]
  rcases Nat.mod_two_eq_zero_or_one data.length with h2 | h2 <;>
    simp [h2, List.length_append]

/-- C3 (corrected): the chunk builder emits the tag, then a little-endian
u32 length field that equals the **padded** payload length (payload length
plus one when the payload length is odd), then the payload padded with one
zero byte when its length is odd. -/
theorem C3_chunk_layout (identifier data : List Nat) (h : identifier.length = 4) :
    make_chunk identifier data =
      some (identifier
        ++ uint32_to_bytes (data.length + data.length % 2)
        ++ (if data.length % 2 = 1 then data ++ [0] else data)) :=
  make_chunk_layout identifier data h

/-- Witness for `C3_chunk_layout` at a concrete 4-byte tag and a 1-byte
payload. -/
theorem C3_witness :
    make_chunk [102, 109, 116, 32] [7] =
      some ([102, 109, 116, 32] ++ uint32_to_bytes (1 + 1 % 2) ++ ([7] ++ [0])) := by
  have h := C3_chunk_layout [102, 109, 116, 32] [7] (by decide)
  simpa using h

/-- C3 counterexample: the claim as stated (length field equals the
*unpadded* payload length) fails for the 1-byte payload `[7]`: the source
writes a length field of 2, not 1. -/
theorem C3_counterexample :
    make_chunk [102, 109, 116, 32] [7] ≠
      some ([102, 109, 116, 32] ++ uint32_to_bytes 1 ++ ([7] ++ [0])) := by
  decide

/-- C10 (confirmed): every chunk produced by `make_chunk` has even total
length: `8 + payload length` for even payloads and `8 + payload length + 1`
for odd ones, so concatenated chunks always start at even offsets. -/
theorem C10_chunk_even_length (identifier data : List Nat) (h : identifier.length = 4) :
    ∀ out, make_chunk identifier data = some out →
      out.length % 2 = 0 ∧ out.length = 8 + data.length + data.length % 2 := by
  intro out hout
  rw [make_chunk_layout identifier data h] at hout
  rcases Nat.mod_two_eq_zero_or_one data.length with h2 | h2 <;>
  · injection hout with hout
    subst hout
    simp [List.length_append, uint32_to_bytes, h, h2]
    omega

/-- Witness for `C10_chunk_even_length` at a concrete tag and payload. -/
theorem C10_witness :
    ∃ out, make_chunk [100, 97, 116, 97] [1, 2, 3] = some out ∧
      out.length % 2 = 0 ∧ out.length = 8 + 3 + 3 % 2 := by
  refine ⟨[100, 97, 116, 97] ++ uint32_to_bytes 4 ++ [1, 2, 3, 0], by decide, ?_⟩
  exact C10_chunk_even_length [100, 97, 116, 97] [1, 2, 3] (by decide) _ (by decide)

/-! ## Decompressor lemmas -/

theorem pyListGet_ok (xs : List Nat) (src : Nat) (h : src < xs.length) :
    pyListGet xs (src : Int) = .ok (xs.getD src 0) := by
  unfold pyListGet
  rw [if_pos ⟨Int.ofNat_nonneg src, by exact_mod_cast h⟩]
  simp

theorem getD_take_of_lt (l : List Nat) (m i : Nat) (h : i < m) :
    (l.take m).getD i 0 = l.getD i 0 := by
  simp [List.getD_eq_getElem?_getD, List.getElem?_take_of_lt h]

/-- Behaviour of the overlapping copy loop from a valid start index: the
copy appends exactly `n` bytes, leaves the existing output untouched, and
every appended byte equals the byte `length - src` positions before it in
the final buffer (self-overlap included). -/
theorem copyLoop_spec : ∀ (n : Nat) (out : List Nat) (src : Nat),
    src < out.length →
    ∃ r, copyLoop n out (src : Int) = .ok r ∧
      r.take out.length = out ∧
      r.length = out.length + n ∧
      ∀ j < n, r.getD (out.length + j) 0 = r.getD (src + j) 0 := by
  intro n
  induction n with
  | zero =>
    intro out src h
    exact ⟨out, rfl, by simp, by simp, fun j hj => absurd hj (Nat.not_lt_zero j)⟩
  | succ n ih =>
    intro out src h
    have hcast : (src : Int) + 1 = ((src + 1 : Nat) : Int) := by push_cast; ring
    have h1 : src + 1 < (out ++ [out.getD src 0]).length := by
      simp only [List.length_append, List.length_cons, List.length_nil]
      omega
    obtain ⟨r, hr, htake, hlen, hidx⟩ := ih (out ++ [out.getD src 0]) (src + 1) h1
    have hlen1 : (out ++ [out.getD src 0]).length = out.length + 1 := by simp
    rw [hlen1] at htake hlen hidx
    have hpre : ∀ i < out.length + 1,
        r.getD i 0 = (out ++ [out.getD src 0]).getD i 0 := by
      intro i hi
      rw [← htake, getD_take_of_lt _ _ _ hi]
    refine ⟨r, ?_, ?_, by omega, ?_⟩
    · rw [copyLoop, pyListGet_ok out src h, hcast]
      exact hr
    · have hmin : r.take out.length = (r.take (out.length + 1)).take out.length := by
        rw [List.take_take, Nat.min_eq_left (Nat.le_succ _)]
      rw [hmin, htake]
      exact List.take_left' rfl
    · intro j hj
      match j with
      | 0 =>
        have e1 : r.getD (out.length + 0) 0 = out.getD src 0 := by
          rw [Nat.add_zero, hpre out.length (by omega)]
          simp [List.getD_eq_getElem?_getD,
            List.getElem?_append_right (Nat.le_refl out.length)]
        have e2 : r.getD (src + 0) 0 = out.getD src 0 := by
          rw [Nat.add_zero, hpre src (by omega)]
          simp [List.getD_eq_getElem?_getD, List.getElem?_append_left h]
        rw [e1, e2]
      | j + 1 =>
        have e := hidx j (by omega)
        have e1 : out.length + (j + 1) = out.length + 1 + j := by omega
        have e2 : src + (j + 1) = src + 1 + j := by omega
        rw [e1, e2]
        exact e

/-- C1 (confirmed): a set flag bit reads `b0, b1`, decodes
`offset = (b0 << 4) | (b1 >> 4)` and a length nibble `b1 & 0x0F`; a zero
nibble stops immediately, returning the finished marker and ignoring the
remaining flag bits; otherwise `length + 1` bytes are copied one at a time
from output position `current_output_length - offset`, each appended
before the next is read, so self-overlapping runs replicate earlier
output.  A clear flag bit copies one literal byte.  Concretely, output
`"A"` followed by a back-reference `offset = 1, nibble = 2` yields
`"AAAA"`. -/
theorem C1_decompress_item_spec (data : List Nat) (k flag pos : Nat) (out : List Nat)
    (b0 b1 : Nat) (h0 : data[pos]? = some b0) (h1 : data[pos + 1]? = some b1) :
    (flag % 2 = 1 → b1 &&& 0x0f = 0 →
      processItems data (k + 1) flag pos out = .ok (pos + 2, out, true)) ∧
    (flag % 2 = 1 → b1 &&& 0x0f ≠ 0 →
      0 < (b0 <<< 4) + ((b1 &&& 0xf0) >>> 4) →
      (b0 <<< 4) + ((b1 &&& 0xf0) >>> 4) ≤ out.length →
      ∃ out1,
        out1.take out.length = out ∧
        out1.length = out.length + (b1 &&& 0x0f) + 1 ∧
        (∀ j < (b1 &&& 0x0f) + 1,
          out1.getD (out.length + j) 0 =
            out1.getD (out.length - ((b0 <<< 4) + ((b1 &&& 0xf0) >>> 4)) + j) 0) ∧
        processItems data (k + 1) flag pos out =
          processItems data k (flag / 2) (pos + 2) out1) ∧
    (flag % 2 = 0 →
      processItems data (k + 1) flag pos out =
        processItems data k (flag / 2) (pos + 1) (out ++ [b0])) ∧
    decompress [6, 65, 0, 18, 0, 0] = .ok [65, 65, 65, 65] := by
  refine ⟨?_, ?_, ?_, by rfl⟩
  · intro hflag hnib
    simp [processItems, inputByte, h0, h1, hflag, hnib]
  · intro hflag hnib hpos hle
    have hsrc : out.length - ((b0 <<< 4) + ((b1 &&& 0xf0) >>> 4)) < out.length := by omega
    obtain ⟨r, hr, htake, hlen, hidx⟩ :=
      copyLoop_spec ((b1 &&& 0x0f) + 1) out
        (out.length - ((b0 <<< 4) + ((b1 &&& 0xf0) >>> 4))) hsrc
    have hcast : ((out.length - ((b0 <<< 4) + ((b1 &&& 0xf0) >>> 4)) : Nat) : Int) =
        (out.length : Int) - ((b0 <<< 4) + ((b1 &&& 0xf0) >>> 4)) := by
      omega
    rw [hcast] at hr
    refine ⟨r, htake, by omega, hidx, ?_⟩
    have hoff : ¬((b0 <<< 4) + ((b1 &&& 0xf0) >>> 4) = 0) := by omega
    simp [processItems, inputByte, h0, h1, hflag, hnib, hoff, hr]
  · intro hflag
    simp [processItems, inputByte, h0, hflag]

/-- Witness for `C1_decompress_item_spec`: the literal/back-reference/
sentinel stream `[6, 65, 0, 18, 0, 0]` ("A", then offset 1 nibble 2, then
the sentinel) decompresses to `"AAAA"`. -/
theorem C1_witness : decompress [6, 65, 0, 18, 0, 0] = .ok [65, 65, 65, 65] :=
  (C1_decompress_item_spec [6, 65, 0, 18, 0, 0] 0 3 2 [65] 0 18
    (by rfl) (by rfl)).2.2.2

/-- C2 counterexample: the back-reference in `[12, 65, 66, 0, 49, 0, 0]`
has decoded offset 3 while the output so far is only `"AB"` (length 2) —
the claim says this must abort with a fatal error, but the source performs
a Python negative-index read from the end of the output and succeeds,
producing `"ABBA"`. -/
theorem C2_counterexample :
    decompress [12, 65, 66, 0, 49, 0, 0] = .ok [65, 66, 66, 65] := rfl

/-- C2 (corrected): a back-reference with a nonzero length nibble and a
decoded offset of 0 fails the source's `assert offset > 0` and aborts
decompression; an offset exceeding the current output length is *not*
checked. -/
theorem C2_offset_zero_fatal (data : List Nat) (k flag pos : Nat) (out : List Nat)
    (b0 b1 : Nat) (hflag : flag % 2 = 1)
    (h0 : data[pos]? = some b0) (h1 : data[pos + 1]? = some b1)
    (hnib : b1 &&& 0x0f ≠ 0) (hoff : (b0 <<< 4) + ((b1 &&& 0xf0) >>> 4) = 0) :
    processItems data (k + 1) flag pos out = .error .assertFail := by
  simp [processItems, inputByte, h0, h1, hflag, hnib, hoff]

/-- Witness for `C2_offset_zero_fatal`: nibble 1, offset 0. -/
theorem C2_witness : processItems [0, 1] 1 1 0 [] = .error .assertFail :=
  C2_offset_zero_fatal [0, 1] 0 1 0 [] 0 1 (by rfl) (by rfl) (by rfl)
    (by decide) (by decide)

end Wolf3DExtractor

namespace Wolf3DExtractor

/-! ## PCM writer (`extractor/wav.py`) -/

/-- Source `wav.write_int`: `struct.pack("<i", x)` — four little-endian bytes of
the signed 32-bit value in two's complement.  `struct.pack` raises for
values outside the signed 32-bit range; the modular reduction below only
differs from the source on that error path. -/
def int32_to_bytes (x : Int) : List Nat :=
  uint32_to_bytes (x % 4294967296).toNat

/-- Source `wav.write_short`: `struct.pack("<h", x)` — two little-endian bytes. -/
def int16_to_bytes (x : Int) : List Nat :=
  [(x % 65536).toNat % 256, (x % 65536).toNat / 256]

/-- The word-alignment padding in `Writer.write`: one byte of sound data
is appended when the stream is 8-bit with odd length (`0x00` for signed
data, `0x80` otherwise). -/
def wavPadded (bytes_per_sample : Nat) (signed : Bool) (sound_data : List Int) :
    List Int :=
  if bytes_per_sample = 1 ∧ sound_data.length % 2 = 1 then
    sound_data ++ [if signed then 0 else 128]
  else sound_data

/-- The declared top-level RIFF chunk size computed by `Writer.write`:
36 plus the PCM payload in bytes; when a loop offset is present, plus
`36 + 30` for the cue chunk and its label list, and plus `68` for the
sampler chunk, each under its configuration flag. -/
def wavChunkSize (bytes_per_sample data_length : Nat)
    (has_loop include_cue include_smpl : Bool) : Nat :=
  36 + data_length * bytes_per_sample +
    (if has_loop then
      (if include_cue then 36 + 30 else 0) + (if include_smpl then 68 else 0)
    else 0)

/-- The `smpl` chunk emitted by `Writer.write` (fixed 60-byte body
describing a single forward loop). -/
def smplChunk (sample_rate channels data_length : Nat) (loop_offset : Int) :
    List Nat :=
  [115, 109, 112, 108] ++ int32_to_bytes 60 ++ int32_to_bytes 0 ++ int32_to_bytes 0
    ++ int32_to_bytes ((1000000000 / sample_rate : Nat) : Int) ++ int32_to_bytes 60
    ++ int32_to_bytes 0 ++ int32_to_bytes 0 ++ int32_to_bytes 0 ++ int32_to_bytes 1
    ++ int32_to_bytes 0 ++ int32_to_bytes 0 ++ int32_to_bytes 0
    ++ int32_to_bytes loop_offset ++ int32_to_bytes ((data_length / channels : Nat) : Int)
    ++ int32_to_bytes 0 ++ int32_to_bytes 0

/-- The `cue ` chunk and its associated `LIST`/`adtl` label chunk naming
the cue point `"loop"`, as emitted by `Writer.write`. -/
def cueChunk (loop_offset : Int) : List Nat :=
  [99, 117, 101, 32] ++ int32_to_bytes (4 + 1 * 24) ++ int32_to_bytes 1
    ++ int32_to_bytes 0 ++ int32_to_bytes loop_offset ++ [100, 97, 116, 97]
    ++ int32_to_bytes 0 ++ int32_to_bytes 0 ++ int32_to_bytes loop_offset
    ++ [76, 73, 83, 84] ++ int32_to_bytes 22 ++ [97, 100, 116, 108]
    ++ [108, 97, 98, 108] ++ int32_to_bytes (4 + 6) ++ int32_to_bytes 0
    ++ [108, 111, 111, 112, 0, 0]

/-- Source `struct.pack` of the sample stream in `Writer.write`: one unsigned
byte per sample for 8-bit audio (`"B"`), two little-endian bytes per
16-bit sample value (`"h"`).  `struct.pack` raises on out-of-range sample
values; the modular reduction only differs on that error path. -/
def packSamples (bits_per_sample : Nat) (sound_data : List Int) : List Nat :=
  if bits_per_sample = 8 then sound_data.map (fun v => (v % 256).toNat)
  else (sound_data.map int16_to_bytes).flatten

/-- Everything `Writer.write` emits after the top-level size field. -/
def wavBody (sample_rate channels bits_per_sample bytes_per_sample : Nat)
    (padded : List Int) (loop_offset : Option Int)
    (include_cue include_smpl : Bool) : List Nat :=
  [87, 65, 86, 69]
    ++ [102, 109, 116, 32] ++ int32_to_bytes 16 ++ int16_to_bytes 1
    ++ int16_to_bytes (channels : Int) ++ int32_to_bytes (sample_rate : Int)
    ++ int32_to_bytes ((sample_rate * bytes_per_sample * channels : Nat) : Int)
    ++ int16_to_bytes ((bytes_per_sample * channels : Nat) : Int)
    ++ int16_to_bytes (bits_per_sample : Int)
    ++ [100, 97, 116, 97]
    ++ int32_to_bytes ((padded.length * bytes_per_sample : Nat) : Int)
    ++ packSamples bits_per_sample padded
    ++ (match loop_offset with
        | none => []
        | some off =>
          (if include_smpl then smplChunk sample_rate channels padded.length off else [])
            ++ (if include_cue then cueChunk off else []))

/-- Source `wav.Writer.write`: pads the data when needed, computes the declared
top-level chunk size, then emits `"RIFF"`, the size field, and the body.
`sound_data` is the sample sequence handed to `struct.pack` (byte values
for 8-bit audio, 16-bit sample values otherwise). -/
def wavWrite (sample_rate channels bits_per_sample : Nat) (signed : Bool)
    (sound_data : List Int) (loop_offset : Option Int)
    (include_cue include_smpl : Bool) : List Nat :=
  [82, 73, 70, 70]
    ++ (int32_to_bytes (wavChunkSize (bits_per_sample / 8)
          (wavPadded (bits_per_sample / 8) signed sound_data).length
          loop_offset.isSome include_cue include_smpl)
      ++ wavBody sample_rate channels bits_per_sample (bits_per_sample / 8)
          (wavPadded (bits_per_sample / 8) signed sound_data)
          loop_offset include_cue include_smpl)

/-- The top-level size field of the emitted file (bytes 4..7) is exactly
the little-endian encoding of `wavChunkSize`. -/
theorem wavWrite_size_field (sample_rate channels bits_per_sample : Nat)
    (signed : Bool) (sound_data : List Int) (loop_offset : Option Int)
    (include_cue include_smpl : Bool) :
    ((wavWrite sample_rate channels bits_per_sample signed sound_data loop_offset
        include_cue include_smpl).drop 4).take 4 =
      int32_to_bytes (wavChunkSize (bits_per_sample / 8)
        (wavPadded (bits_per_sample / 8) signed sound_data).length
        loop_offset.isSome include_cue include_smpl) := by
  unfold wavWrite
  rw [List.drop_left' (by rfl : ([82, 73, 70, 70] : List Nat).length = 4)]
  exact List.take_left' rfl

/-- C4 counterexample: for 200 mono 16-bit samples with `loop_offset=100`
and both loop chunks enabled, the declared top-level chunk size is
`36 + 400 + 66 + 68 = 570`, not the `534` the claim computes (the cue
chunk plus its label list costs 66 bytes, not 30). -/
theorem C4_counterexample :
    ((wavWrite 22050 1 16 true (List.replicate 200 0) (some 100) true true).drop 4).take 4 =
      int32_to_bytes 570 ∧
    ((wavWrite 22050 1 16 true (List.replicate 200 0) (some 100) true true).drop 4).take 4 ≠
      int32_to_bytes 534 := by
  have h := wavWrite_size_field 22050 1 16 true (List.replicate 200 0) (some 100) true true
  have hpad : wavPadded (16 / 8) true (List.replicate 200 (0 : Int)) =
      List.replicate 200 0 := by
    unfold wavPadded
    norm_num
  have hsz : wavChunkSize (16 / 8) (wavPadded (16 / 8) true (List.replicate 200 0)).length
      (some (100 : Int)).isSome true true = 570 := by
    rw [hpad]
    unfold wavChunkSize
    norm_num
  rw [hsz] at h
  exact ⟨h, by rw [h]; decide⟩

/-- C4 (corrected): the declared top-level chunk size equals 36 plus the
PCM payload size (padded length times bytes per sample) plus, when a loop
offset is present, 66 bytes for the cue chunk plus label list and 68 bytes
for the sampler chunk, under the respective configuration flags.  For the
200-sample example the declared size is 570. -/
theorem C4_chunk_size_field (sample_rate channels bits_per_sample : Nat)
    (signed : Bool) (sound_data : List Int) (loop_offset : Option Int)
    (include_cue include_smpl : Bool) :
    (((wavWrite sample_rate channels bits_per_sample signed sound_data loop_offset
        include_cue include_smpl).drop 4).take 4 =
      int32_to_bytes
        (((36 + (wavPadded (bits_per_sample / 8) signed sound_data).length *
            (bits_per_sample / 8) +
          (if loop_offset.isSome then
            (if include_cue then 66 else 0) + (if include_smpl then 68 else 0)
          else 0) : Nat) : Int))) ∧
    wavChunkSize 2 200 true true true = 570 := by
  refine ⟨?_, by unfold wavChunkSize; norm_num⟩
  have hsz : wavChunkSize (bits_per_sample / 8)
      (wavPadded (bits_per_sample / 8) signed sound_data).length
      loop_offset.isSome include_cue include_smpl =
      36 + (wavPadded (bits_per_sample / 8) signed sound_data).length *
          (bits_per_sample / 8) +
        (if loop_offset.isSome then
          (if include_cue then 66 else 0) + (if include_smpl then 68 else 0)
        else 0) := by
    unfold wavChunkSize
    norm_num
  rw [wavWrite_size_field, hsz]

end Wolf3DExtractor

namespace Wolf3DExtractor

/-! ## Map converter (`extractor/gamemap.py`) -/

/-- A parsed map object: `GameMap._read_objects` stores a dict with keys
`x`, `y`, `code` and, for pushwall objects only, `wall`. -/
structure MapObj where
  x : Nat
  y : Nat
  code : Nat
  wall : Option Nat
deriving DecidableEq, Repr

/-- Source `GameMap._is_dos_floor_code`: `0x6C <= code <= 0x8F`. -/
def is_dos_floor_code (code : Nat) : Bool :=
  decide (0x6c ≤ code ∧ code ≤ 0x8f)

/-- The wall-plane translation in `GameMap.generate_dos_map`: codes at or
above `0x80` lose the high bit, codes below 64 index into the per-map
floor-code table and are rebased at `FLOOR_CODE_START = 0x6C`, everything
else passes through unchanged.  `floorcodes` always has 64 entries when
built by `GameMap._read_tiles`, so the `getD` default is never hit
there (Python would raise `IndexError` on a shorter table). -/
def convertWallCode (floorcodes : List Nat) (code : Nat) : Nat :=
  if 0x80 ≤ code then code - 0x80
  else if code < 64 then 0x6c + floorcodes.getD code 0
  else code

/-- Index of the tile `count` steps from the object along the moving axis
(`steps[count-1]['x'] + steps[count-1]['y'] * 64` in
`GameMap._is_valid_pushwall_direction`, computed with Python integer
arithmetic). -/
def pushwallStepIndex (obj : MapObj) (moveY : Bool) (move_step count : Int) : Nat :=
  (if moveY then (obj.x : Int) + ((obj.y : Int) + count * move_step) * 64
   else ((obj.x : Int) + count * move_step) + (obj.y : Int) * 64).toNat

/-- Source `GameMap._is_valid_pushwall_direction` (early returns rendered as
nested conditionals): the second step's moving coordinate must lie in
`1 <= c < 63`, the first step must hold a DOS floor code, and the second
step must equal the pushwall's wall byte.  The tile reads only happen
after the bounds check, which keeps both indices inside the 64x64 grid
whenever the object's own coordinates are; `getD`'s default stands in for
Python's `IndexError` outside that domain. -/
def is_valid_pushwall_direction (tiles0 : List Nat) (obj : MapObj)
    (moveY : Bool) (move_step : Int) : Bool :=
  if 1 ≤ (if moveY then (obj.y : Int) else (obj.x : Int)) + 2 * move_step ∧
      (if moveY then (obj.y : Int) else (obj.x : Int)) + 2 * move_step < 63 then
    if is_dos_floor_code (tiles0.getD (pushwallStepIndex obj moveY move_step 1) 0) then
      decide (tiles0.getD (pushwallStepIndex obj moveY move_step 2) 0 = obj.wall.getD 0)
    else false
  else false

/-- The unconditional first write of `GameMap._fix_pushwall`:
`tiles[0][index] = obj['wall']` (a `KeyError` in Python if the object had
no wall byte; `GameMap._read_objects` only builds pushwall objects with
one, which the claims assume via `obj.wall = some w`). -/
def pushwallBase (tiles0 : List Nat) (obj : MapObj) : List Nat :=
  tiles0.set (obj.x + obj.y * 64) (obj.wall.getD 0)

/-- The `move_dir` bitmask of `GameMap._fix_pushwall` (north 1, south 2,
west 4, east 8).  The source accumulates it with `|=`; since the four
contributions occupy disjoint bits, the sum below is the same value. -/
def pushwallMoveDir (t0 : List Nat) (obj : MapObj) : Nat :=
  (if is_valid_pushwall_direction t0 obj true (-1) then 1 else 0)
    + (if is_valid_pushwall_direction t0 obj true 1 then 2 else 0)
    + (if is_valid_pushwall_direction t0 obj false (-1) then 4 else 0)
    + (if is_valid_pushwall_direction t0 obj false 1 then 8 else 0)

/-- The direction-name list `GameMap._fix_pushwall` logs when it cannot
pick a unique direction (order north, south, west, east as in the
source). -/
def pushwallDirNames (t0 : List Nat) (obj : MapObj) : List String :=
  (if is_valid_pushwall_direction t0 obj true (-1) then ["north"] else [])
    ++ (if is_valid_pushwall_direction t0 obj true 1 then ["south"] else [])
    ++ (if is_valid_pushwall_direction t0 obj false (-1) then ["west"] else [])
    ++ (if is_valid_pushwall_direction t0 obj false 1 then ["east"] else [])

/-- Source `GameMap._fix_pushwall`: writes the pushwall's wall byte into the wall
plane at the object's tile; when direction detection is enabled, collects
the valid directions as a bitmask, applies the two-tile push when exactly
one bit is set, and otherwise changes nothing further and reports the
candidate directions (the list the source logs, returned here as the
optional diagnostic).  The arithmetic `index - 128` / `index - 2` only
occurs in branches whose validity bounds force `index` large enough for
natural subtraction to agree with Python's. -/
def fix_pushwall (detect : Bool) (tiles0 : List Nat) (obj : MapObj) :
    List Nat × Option (List String) :=
  let index := obj.x + obj.y * 64
  let t0 := pushwallBase tiles0 obj
  if detect then
    if pushwallMoveDir t0 obj = 1 then
      (t0.set (index - 128) (t0.getD (index - 64) 0), none)
    else if pushwallMoveDir t0 obj = 2 then
      (t0.set (index + 128) (t0.getD (index + 64) 0), none)
    else if pushwallMoveDir t0 obj = 4 then
      (t0.set (index - 2) (t0.getD (index - 1) 0), none)
    else if pushwallMoveDir t0 obj = 8 then
      (t0.set (index + 2) (t0.getD (index + 1) 0), none)
    else
      (t0, some (if pushwallMoveDir t0 obj = 0 then ["none"]
        else pushwallDirNames t0 obj))
  else (t0, none)

/-- One iteration of the object-placement loop in
`GameMap.generate_dos_map`: door codes (`0x5A..0x61`) go into the wall
plane, every other code into the object plane, and pushwall objects
(`code 0x62`) additionally run `GameMap._fix_pushwall` on the wall
plane. -/
def placeObject (detect : Bool) (tiles : List Nat × List Nat) (obj : MapObj) :
    List Nat × List Nat :=
  let index := obj.x + obj.y * 64
  if 0x5a ≤ obj.code ∧ obj.code ≤ 0x61 then
    (tiles.1.set index obj.code, tiles.2)
  else
    let t1 := tiles.2.set index obj.code
    if obj.code = 0x62 then
      ((fix_pushwall detect tiles.1 obj).1, t1)
    else
      (tiles.1, t1)

/-- Source `GameMap.generate_dos_map`: converts the wall plane tile by tile, then
places the objects in input order. -/
def generate_dos_map (detect : Bool) (walls floorcodes : List Nat)
    (objects : List MapObj) : List Nat × List Nat :=
  objects.foldl (placeObject detect)
    (walls.map (convertWallCode floorcodes), List.replicate walls.length 0)

/-- Source `utils.read_ubyte` over a byte list; a short read is a
`struct.error`, modelled as `none`. -/
def read_ubyte : List Nat → Option (Nat × List Nat)
  | [] => none
  | b :: rest => some (b, rest)

/-- Source `utils.read_ushort`: two bytes, little-endian. -/
def read_ushort : List Nat → Option (Nat × List Nat)
  | b0 :: b1 :: rest => some (b0 + b1 * 256, rest)
  | _ => none

/-- One iteration of the object loop in `GameMap._read_objects`: reads
`x` and `y`, logs a warning when either coordinate is outside `0..64`
(note the inclusive upper bound; the `x < 0` cases are unreachable for
unsigned bytes), wraps coordinates at or above 64 down by one map width,
reads the code, and reads the extra wall byte for pushwall objects.  The
source's `bytes_x == ''` early exit compares bytes against a str and is
never true in Python 3, so a short read is a `struct.error` (`none`).
Returns the object, whether a warning was logged, and the rest of the
input. -/
def parseObject (data : List Nat) : Option (MapObj × Bool × List Nat) :=
  match read_ubyte data with
  | none => none
  | some (x0, rest1) =>
    match read_ubyte rest1 with
    | none => none
    | some (y0, rest2) =>
      let warned : Bool := !(decide (x0 ≤ 64) && decide (y0 ≤ 64))
      let x := if 64 ≤ x0 then x0 - 64 else x0
      let y := if 64 ≤ y0 then y0 - 64 else y0
      match read_ubyte rest2 with
      | none => none
      | some (code, rest3) =>
        if code = 0x62 then
          match read_ubyte rest3 with
          | none => none
          | some (wall, rest4) => some (⟨x, y, code, some wall⟩, warned, rest4)
        else
          some (⟨x, y, code, none⟩, warned, rest3)

/-- The object loop of `GameMap._read_objects`, returning the objects in
input order together with the number of bounds warnings logged. -/
def readObjectsLoop : Nat → List Nat → Option (List MapObj × Nat)
  | 0, _ => some ([], 0)
  | n + 1, data =>
    match parseObject data with
    | none => none
    | some (obj, warned, rest) =>
      match readObjectsLoop n rest with
      | none => none
      | some (objs, warns) => some (obj :: objs, (if warned then 1 else 0) + warns)

/-- Source `GameMap._read_objects`: reads the object count, seeks 6 bytes
forward, then reads `count` objects. -/
def readObjects (data : List Nat) : Option (List MapObj × Nat) :=
  match read_ushort data with
  | none => none
  | some (count, rest) => readObjectsLoop count (rest.drop 6)

/-- C5 counterexample: an object at `x=64, y=10` is wrapped to `x=0, y=10`
and kept, but **no** bounds warning is logged — the source's warning
condition `0 <= x <= 64` treats 64 as in range even though the wrap
condition `x >= 64` fires.  The claim's "raises a warning" (and "exactly
one bounds warning" in the example) fails. -/
theorem C5_counterexample :
    readObjects [1, 0, 0, 0, 0, 0, 0, 0, 64, 10, 5] =
      some ([⟨0, 10, 5, none⟩], 0) ∧ (0 : Nat) ≠ 1 :=
  ⟨rfl, by decide⟩

/-- C5 (corrected): a coordinate at or above 64 is wrapped down by exactly
one 64-step (never clamped), the object is kept with its code (never
dropped: a successful `n`-object parse returns exactly `n` objects, each
obtained from `parseObject`), and a bounds warning is logged iff a
coordinate strictly exceeds 64 — a coordinate equal to 64 is wrapped
silently. -/
theorem C5_bounds_correction (x0 y0 code : Nat) (rest : List Nat)
    (hcode : code ≠ 0x62) :
    (∃ warned,
      parseObject (x0 :: y0 :: code :: rest) =
        some (⟨if 64 ≤ x0 then x0 - 64 else x0, if 64 ≤ y0 then y0 - 64 else y0,
          code, none⟩, warned, rest) ∧
      (warned = true ↔ (64 < x0 ∨ 64 < y0))) ∧
    (∀ n data objs warns, readObjectsLoop n data = some (objs, warns) →
      objs.length = n) := by
  constructor
  · refine ⟨!(decide (x0 ≤ 64) && decide (y0 ≤ 64)), ?_, ?_⟩
    · simp only [parseObject, read_ubyte]
      rw [if_neg hcode]
    · simp only [Bool.not_eq_eq_eq_not, Bool.not_true, Bool.and_eq_false_imp,
        decide_eq_true_eq, Bool.not_eq_true', decide_eq_false_iff_not]
      constructor
      · intro h
        by_cases hx : x0 ≤ 64
        · have := h hx
          omega
        · omega
      · intro h hx
        omega
  · intro n
    induction n with
    | zero =>
      intro data objs warns h
      simp only [readObjectsLoop, Option.some.injEq, Prod.mk.injEq] at h
      rw [← h.1]
      rfl
    | succ n ih =>
      intro data objs warns h
      rw [readObjectsLoop] at h
      split at h
      · exact absurd h (by simp)
      · split at h
        · exact absurd h (by simp)
        · rename_i objs1 warns1 hl
          simp only [Option.some.injEq, Prod.mk.injEq] at h
          rw [← h.1]
          simp only [List.length_cons]
          rw [ih _ _ _ hl]

/-- Witness for `C5_bounds_correction`: the concrete `x=64, y=10` object
byte stream, wrapped to `(0, 10)` with no warning. -/
theorem C5_witness :
    (∃ warned,
      parseObject [64, 10, 5] =
        some (⟨if 64 ≤ 64 then 64 - 64 else 64, if 64 ≤ 10 then 10 - 64 else 10,
          5, none⟩, warned, []) ∧
      (warned = true ↔ (64 < 64 ∨ 64 < 10))) ∧
    (∀ n data objs warns, readObjectsLoop n data = some (objs, warns) →
      objs.length = n) :=
  C5_bounds_correction 64 10 5 [] (by decide)

/-- C8 (confirmed): the wall-plane translation of
`GameMap.generate_dos_map` maps codes at or above `0x80` to `code - 0x80`,
codes below 64 to `0x6C + floor_codes[code]`, and leaves codes in
`[64, 0x80)` unchanged; the conversion is applied tile by tile before any
object is placed. -/
theorem C8_wall_code_translation (floorcodes walls : List Nat) (code : Nat)
    (detect : Bool) :
    (0x80 ≤ code → convertWallCode floorcodes code = code - 0x80) ∧
    (code < 64 → convertWallCode floorcodes code = 0x6c + floorcodes.getD code 0) ∧
    (64 ≤ code → code < 0x80 → convertWallCode floorcodes code = code) ∧
    generate_dos_map detect walls floorcodes [] =
      (walls.map (convertWallCode floorcodes), List.replicate walls.length 0) := by
  refine ⟨?_, ?_, ?_, rfl⟩
  · intro h
    unfold convertWallCode
    rw [if_pos h]
  · intro h
    unfold convertWallCode
    rw [if_neg (by omega), if_pos h]
  · intro h1 h2
    unfold convertWallCode
    rw [if_neg (by omega), if_neg (by omega)]

/-- Witness for `C8_wall_code_translation`: code `0x85` becomes `5`, and
code `3` indexes the floor-code table. -/
theorem C8_witness :
    convertWallCode [9, 9, 9, 7] 0x85 = 0x85 - 0x80 ∧
    convertWallCode [9, 9, 9, 7] 3 = 0x6c + [9, 9, 9, 7].getD 3 0 :=
  ⟨(C8_wall_code_translation [9, 9, 9, 7] [] 0x85 false).1 (by decide),
   (C8_wall_code_translation [9, 9, 9, 7] [] 3 false).2.1 (by decide)⟩

end Wolf3DExtractor

namespace Wolf3DExtractor

/-! ## Pushwall lemmas -/

theorem is_dos_floor_code_iff (code : Nat) :
    is_dos_floor_code code = true ↔ (0x6c ≤ code ∧ code ≤ 0x8f) := by
  simp [is_dos_floor_code]

theorem getD_set_self (l : List Nat) (i a : Nat) (h : i < l.length) :
    (l.set i a).getD i 0 = a := by
  simp [List.getD_eq_getElem?_getD, List.getElem?_set_self h]

theorem getD_set_ne (l : List Nat) (i j a : Nat) (h : i ≠ j) :
    (l.set i a).getD j 0 = l.getD j 0 := by
  simp [List.getD_eq_getElem?_getD, List.getElem?_set_ne h]

/-- Source `_is_valid_pushwall_direction` phrased as the spec describes it: the
two-step tile's moving-axis coordinate lies in `[1, 62]`, the one-step
tile holds a floor code in `[0x6C, 0x8F]`, and the two-step tile equals
the object's stored wall byte. -/
theorem is_valid_pushwall_direction_iff (u : List Nat) (obj : MapObj) (w : Nat)
    (hw : obj.wall = some w) (moveY : Bool) (st : Int) :
    is_valid_pushwall_direction u obj moveY st = true ↔
      ((1 ≤ (if moveY then (obj.y : Int) else (obj.x : Int)) + 2 * st ∧
        (if moveY then (obj.y : Int) else (obj.x : Int)) + 2 * st ≤ 62) ∧
       (0x6c ≤ u.getD (pushwallStepIndex obj moveY st 1) 0 ∧
        u.getD (pushwallStepIndex obj moveY st 1) 0 ≤ 0x8f) ∧
       u.getD (pushwallStepIndex obj moveY st 2) 0 = w) := by
  unfold is_valid_pushwall_direction
  rw [hw]
  by_cases h1 : 1 ≤ (if moveY then (obj.y : Int) else (obj.x : Int)) + 2 * st ∧
      (if moveY then (obj.y : Int) else (obj.x : Int)) + 2 * st < 63
  · rw [if_pos h1]
    by_cases h2 : is_dos_floor_code (u.getD (pushwallStepIndex obj moveY st 1) 0) = true
    · rw [if_pos h2, is_dos_floor_code_iff] at *
      simp only [decide_eq_true_eq, Option.getD_some]
      constructor
      · intro he
        exact ⟨⟨h1.1, by omega⟩, h2, he⟩
      · intro hc
        exact hc.2.2
    · rw [if_neg h2]
      simp only [Bool.false_eq_true, false_iff]
      intro hc
      exact h2 ((is_dos_floor_code_iff _).mpr hc.2.1)
  · rw [if_neg h1]
    simp only [Bool.false_eq_true, false_iff]
    intro hc
    exact h1 ⟨hc.1.1, by omega⟩

/-- A valid direction's bounds check passed, so the two-step tile's moving
coordinate is in range. -/
theorem is_valid_moving_coord_bounds (u : List Nat) (obj : MapObj)
    (moveY : Bool) (st : Int)
    (h : is_valid_pushwall_direction u obj moveY st = true) :
    1 ≤ (if moveY then (obj.y : Int) else (obj.x : Int)) + 2 * st ∧
    (if moveY then (obj.y : Int) else (obj.x : Int)) + 2 * st < 63 := by
  unfold is_valid_pushwall_direction at h
  by_cases h1 : 1 ≤ (if moveY then (obj.y : Int) else (obj.x : Int)) + 2 * st ∧
      (if moveY then (obj.y : Int) else (obj.x : Int)) + 2 * st < 63
  · exact h1
  · rw [if_neg h1] at h
    exact absurd h (by simp)

/-- Source `move_dir = 1` forces the north direction valid. -/
theorem pushwallMoveDir_north (t0 : List Nat) (obj : MapObj)
    (h : pushwallMoveDir t0 obj = 1) :
    is_valid_pushwall_direction t0 obj true (-1) = true := by
  by_contra hc
  rw [Bool.not_eq_true] at hc
  simp only [pushwallMoveDir, hc, Bool.false_eq_true, if_false] at h
  split_ifs at h <;> omega

/-- Source `move_dir = 4` forces the west direction valid. -/
theorem pushwallMoveDir_west (t0 : List Nat) (obj : MapObj)
    (h : pushwallMoveDir t0 obj = 4) :
    is_valid_pushwall_direction t0 obj false (-1) = true := by
  by_contra hc
  rw [Bool.not_eq_true] at hc
  simp only [pushwallMoveDir, hc, Bool.false_eq_true, if_false] at h
  split_ifs at h <;> omega

end Wolf3DExtractor

namespace Wolf3DExtractor

/-- C7 (confirmed): after the pushwall's wall byte is written at its own
tile, a direction is valid iff the two-step tile's moving-axis coordinate
is in `[1, 62]`, the one-step tile holds a floor code in `[0x6C, 0x8F]`,
and the two-step tile equals the stored wall byte.  With exactly one valid
direction, plane0 two steps that way is set to the floor-code value found
one step that way and no diagnostic is produced; with zero or two or more
valid directions no further tile changes and the diagnostic lists the
qualifying directions (`["none"]` when there are none). -/
theorem C7_pushwall_inference (tiles0 : List Nat) (obj : MapObj) (w : Nat)
    (hw : obj.wall = some w) (n s wv e : Bool)
    (hn : n = is_valid_pushwall_direction (pushwallBase tiles0 obj) obj true (-1))
    (hs : s = is_valid_pushwall_direction (pushwallBase tiles0 obj) obj true 1)
    (hwv : wv = is_valid_pushwall_direction (pushwallBase tiles0 obj) obj false (-1))
    (he : e = is_valid_pushwall_direction (pushwallBase tiles0 obj) obj false 1) :
    (∀ (u : List Nat) (moveY : Bool) (st : Int),
      is_valid_pushwall_direction u obj moveY st = true ↔
        ((1 ≤ (if moveY then (obj.y : Int) else (obj.x : Int)) + 2 * st ∧
          (if moveY then (obj.y : Int) else (obj.x : Int)) + 2 * st ≤ 62) ∧
         (0x6c ≤ u.getD (pushwallStepIndex obj moveY st 1) 0 ∧
          u.getD (pushwallStepIndex obj moveY st 1) 0 ≤ 0x8f) ∧
         u.getD (pushwallStepIndex obj moveY st 2) 0 = w)) ∧
    (n = true → s = false → wv = false → e = false →
      fix_pushwall true tiles0 obj =
        ((pushwallBase tiles0 obj).set (obj.x + obj.y * 64 - 128)
          ((pushwallBase tiles0 obj).getD (obj.x + obj.y * 64 - 64) 0), none)) ∧
    (n = false → s = true → wv = false → e = false →
      fix_pushwall true tiles0 obj =
        ((pushwallBase tiles0 obj).set (obj.x + obj.y * 64 + 128)
          ((pushwallBase tiles0 obj).getD (obj.x + obj.y * 64 + 64) 0), none)) ∧
    (n = false → s = false → wv = true → e = false →
      fix_pushwall true tiles0 obj =
        ((pushwallBase tiles0 obj).set (obj.x + obj.y * 64 - 2)
          ((pushwallBase tiles0 obj).getD (obj.x + obj.y * 64 - 1) 0), none)) ∧
    (n = false → s = false → wv = false → e = true →
      fix_pushwall true tiles0 obj =
        ((pushwallBase tiles0 obj).set (obj.x + obj.y * 64 + 2)
          ((pushwallBase tiles0 obj).getD (obj.x + obj.y * 64 + 1) 0), none)) ∧
    (n = false → s = false → wv = false → e = false →
      fix_pushwall true tiles0 obj = (pushwallBase tiles0 obj, some ["none"])) ∧
    (2 ≤ (if n then 1 else 0) + (if s then 1 else 0) + (if wv then 1 else 0)
        + (if e then 1 else 0) →
      fix_pushwall true tiles0 obj = (pushwallBase tiles0 obj,
        some ((if n then ["north"] else []) ++ (if s then ["south"] else [])
          ++ (if wv then ["west"] else []) ++ (if e then ["east"] else [])))) := by
  refine ⟨fun u moveY st => is_valid_pushwall_direction_iff u obj w hw moveY st,
    ?_, ?_, ?_, ?_, ?_, ?_⟩
  · intro h1 h2 h3 h4
    have hN := hn.symm.trans h1
    have hS := hs.symm.trans h2
    have hW := hwv.symm.trans h3
    have hE := he.symm.trans h4
    have hmd : pushwallMoveDir (pushwallBase tiles0 obj) obj = 1 := by
      simp [pushwallMoveDir, hN, hS, hW, hE]
    simp [fix_pushwall, hmd]
  · intro h1 h2 h3 h4
    have hN := hn.symm.trans h1
    have hS := hs.symm.trans h2
    have hW := hwv.symm.trans h3
    have hE := he.symm.trans h4
    have hmd : pushwallMoveDir (pushwallBase tiles0 obj) obj = 2 := by
      simp [pushwallMoveDir, hN, hS, hW, hE]
    simp [fix_pushwall, hmd]
  · intro h1 h2 h3 h4
    have hN := hn.symm.trans h1
    have hS := hs.symm.trans h2
    have hW := hwv.symm.trans h3
    have hE := he.symm.trans h4
    have hmd : pushwallMoveDir (pushwallBase tiles0 obj) obj = 4 := by
      simp [pushwallMoveDir, hN, hS, hW, hE]
    simp [fix_pushwall, hmd]
  · intro h1 h2 h3 h4
    have hN := hn.symm.trans h1
    have hS := hs.symm.trans h2
    have hW := hwv.symm.trans h3
    have hE := he.symm.trans h4
    have hmd : pushwallMoveDir (pushwallBase tiles0 obj) obj = 8 := by
      simp [pushwallMoveDir, hN, hS, hW, hE]
    simp [fix_pushwall, hmd]
  · intro h1 h2 h3 h4
    have hN := hn.symm.trans h1
    have hS := hs.symm.trans h2
    have hW := hwv.symm.trans h3
    have hE := he.symm.trans h4
    have hmd : pushwallMoveDir (pushwallBase tiles0 obj) obj = 0 := by
      simp [pushwallMoveDir, hN, hS, hW, hE]
    simp [fix_pushwall, hmd]
  · intro hcount
    have hN := hn.symm
    have hS := hs.symm
    have hW := hwv.symm
    have hE := he.symm
    cases n <;> cases s <;> cases wv <;> cases e <;>
      first
        | exact absurd hcount (by decide)
        | simp [fix_pushwall, pushwallMoveDir, pushwallDirNames, hN, hS, hW, hE]

/-- Witness for `C7_pushwall_inference`: on an empty plane no direction is
valid, so nothing past the wall-byte write changes and the diagnostic
reports `["none"]`. -/
theorem C7_witness :
    fix_pushwall true [] ⟨5, 5, 0x62, some 7⟩ =
      (pushwallBase [] ⟨5, 5, 0x62, some 7⟩, some ["none"]) :=
  (C7_pushwall_inference [] ⟨5, 5, 0x62, some 7⟩ 7 rfl false false false false
    (by decide) (by decide) (by decide) (by decide)).2.2.2.2.2.1 rfl rfl rfl rfl

end Wolf3DExtractor

namespace Wolf3DExtractor

/-- C9 (confirmed): objects are placed in input order at
`index = x + y * 64`.  A door-range code (`0x5A..0x61`) is written into
plane0 at that index with plane1 untouched; any other code is written
into plane1; and a pushwall object (code `0x62`) additionally ends up
with its stored wall byte in plane0 at that index (the direction fix
never overwrites the object's own tile). -/
theorem C9_object_placement (detect : Bool) (tiles : List Nat × List Nat)
    (obj : MapObj) (walls floorcodes : List Nat) (objects : List MapObj)
    (hx : obj.x < 64) (hy : obj.y < 64) (hlen : tiles.1.length = 4096) :
    (0x5a ≤ obj.code → obj.code ≤ 0x61 →
      placeObject detect tiles obj =
        (tiles.1.set (obj.x + obj.y * 64) obj.code, tiles.2)) ∧
    (¬(0x5a ≤ obj.code ∧ obj.code ≤ 0x61) →
      (placeObject detect tiles obj).2 =
        tiles.2.set (obj.x + obj.y * 64) obj.code) ∧
    (¬(0x5a ≤ obj.code ∧ obj.code ≤ 0x61) → obj.code ≠ 0x62 →
      (placeObject detect tiles obj).1 = tiles.1) ∧
    (∀ w, obj.code = 0x62 → obj.wall = some w →
      (placeObject detect tiles obj).1.getD (obj.x + obj.y * 64) 0 = w) ∧
    generate_dos_map detect walls floorcodes objects =
      objects.foldl (placeObject detect)
        (walls.map (convertWallCode floorcodes), List.replicate walls.length 0) := by
  have hidx : obj.x + obj.y * 64 < tiles.1.length := by
    rw [hlen]
    omega
  refine ⟨?_, ?_, ?_, ?_, rfl⟩
  · intro h1 h2
    simp only [placeObject]
    rw [if_pos ⟨h1, h2⟩]
  · intro hdoor
    simp only [placeObject]
    rw [if_neg hdoor]
    by_cases hc : obj.code = 0x62 <;> simp [hc]
  · intro hdoor hc
    simp only [placeObject]
    rw [if_neg hdoor, if_neg hc]
  · intro w hc hwall
    have hdoor : ¬(0x5a ≤ obj.code ∧ obj.code ≤ 0x61) := by omega
    have hbase : pushwallBase tiles.1 obj = tiles.1.set (obj.x + obj.y * 64) w := by
      simp [pushwallBase, hwall]
    have hplace : (placeObject detect tiles obj).1 =
        (fix_pushwall detect tiles.1 obj).1 := by
      simp only [placeObject]
      rw [if_neg hdoor, if_pos hc]
    rw [hplace]
    cases detect with
    | false =>
      simp only [fix_pushwall, Bool.false_eq_true, if_false]
      rw [hbase]
      exact getD_set_self _ _ _ hidx
    | true =>
      simp only [fix_pushwall, if_true]
      by_cases h1 : pushwallMoveDir (pushwallBase tiles.1 obj) obj = 1
      · have hN := pushwallMoveDir_north _ _ h1
        have hb := is_valid_moving_coord_bounds _ _ _ _ hN
        have hy3 : 3 ≤ obj.y := by
          have hb1 := hb.1
          simp only [if_true] at hb1
          omega
        have hne : obj.x + obj.y * 64 - 128 ≠ obj.x + obj.y * 64 := by omega
        rw [if_pos h1]
        rw [show ((pushwallBase tiles.1 obj).set (obj.x + obj.y * 64 - 128)
            ((pushwallBase tiles.1 obj).getD (obj.x + obj.y * 64 - 64) 0), none).1 =
            (pushwallBase tiles.1 obj).set (obj.x + obj.y * 64 - 128)
            ((pushwallBase tiles.1 obj).getD (obj.x + obj.y * 64 - 64) 0) from rfl]
        rw [getD_set_ne _ _ _ _ hne, hbase]
        exact getD_set_self _ _ _ hidx
      · rw [if_neg h1]
        by_cases h2 : pushwallMoveDir (pushwallBase tiles.1 obj) obj = 2
        · have hne : obj.x + obj.y * 64 + 128 ≠ obj.x + obj.y * 64 := by omega
          rw [if_pos h2]
          rw [show ((pushwallBase tiles.1 obj).set (obj.x + obj.y * 64 + 128)
              ((pushwallBase tiles.1 obj).getD (obj.x + obj.y * 64 + 64) 0), none).1 =
              (pushwallBase tiles.1 obj).set (obj.x + obj.y * 64 + 128)
              ((pushwallBase tiles.1 obj).getD (obj.x + obj.y * 64 + 64) 0) from rfl]
          rw [getD_set_ne _ _ _ _ hne, hbase]
          exact getD_set_self _ _ _ hidx
        · rw [if_neg h2]
          by_cases h3 : pushwallMoveDir (pushwallBase tiles.1 obj) obj = 4
          · have hW := pushwallMoveDir_west _ _ h3
            have hb := is_valid_moving_coord_bounds _ _ _ _ hW
            have hx3 : 3 ≤ obj.x := by
              have hb1 := hb.1
              simp only [Bool.false_eq_true, if_false] at hb1
              omega
            have hne : obj.x + obj.y * 64 - 2 ≠ obj.x + obj.y * 64 := by omega
            rw [if_pos h3]
            rw [show ((pushwallBase tiles.1 obj).set (obj.x + obj.y * 64 - 2)
                ((pushwallBase tiles.1 obj).getD (obj.x + obj.y * 64 - 1) 0), none).1 =
                (pushwallBase tiles.1 obj).set (obj.x + obj.y * 64 - 2)
                ((pushwallBase tiles.1 obj).getD (obj.x + obj.y * 64 - 1) 0) from rfl]
            rw [getD_set_ne _ _ _ _ hne, hbase]
            exact getD_set_self _ _ _ hidx
          · rw [if_neg h3]
            by_cases h4 : pushwallMoveDir (pushwallBase tiles.1 obj) obj = 8
            · have hne : obj.x + obj.y * 64 + 2 ≠ obj.x + obj.y * 64 := by omega
              rw [if_pos h4]
              rw [show ((pushwallBase tiles.1 obj).set (obj.x + obj.y * 64 + 2)
                  ((pushwallBase tiles.1 obj).getD (obj.x + obj.y * 64 + 1) 0), none).1 =
                  (pushwallBase tiles.1 obj).set (obj.x + obj.y * 64 + 2)
                  ((pushwallBase tiles.1 obj).getD (obj.x + obj.y * 64 + 1) 0) from rfl]
              rw [getD_set_ne _ _ _ _ hne, hbase]
              exact getD_set_self _ _ _ hidx
            · rw [if_neg h4]
              rw [show ((pushwallBase tiles.1 obj),
                  some (if pushwallMoveDir (pushwallBase tiles.1 obj) obj = 0
                    then ["none"] else pushwallDirNames (pushwallBase tiles.1 obj) obj)).1 =
                  pushwallBase tiles.1 obj from rfl]
              rw [hbase]
              exact getD_set_self _ _ _ hidx

/-- Witness for `C9_object_placement`: a door object (`0x5D`) at `(2, 1)`
lands in plane0 at index 66 and plane1 is untouched. -/
theorem C9_witness :
    placeObject false (List.replicate 4096 0, List.replicate 4096 0)
        ⟨2, 1, 0x5d, none⟩ =
      ((List.replicate 4096 0).set (2 + 1 * 64) 0x5d, List.replicate 4096 0) :=
  (C9_object_placement false (List.replicate 4096 0, List.replicate 4096 0)
    ⟨2, 1, 0x5d, none⟩ [] [] [] (by decide) (by decide)
    (List.length_replicate 4096 0)).1 (by decide) (by decide)

end Wolf3DExtractor

namespace Wolf3DExtractor

/-! ## Soundfont builder (`extractor/soundfont.py`) -/

/-- Source `ModulatorSource` (the five fields packed into the modulator source
word). -/
structure ModulatorSource where
  source_type : Nat
  polarity : Nat
  direction : Nat
  cc_flag : Bool
  index : Nat
deriving DecidableEq, Repr

/-- Source `ModulatorSource.empty()`. -/
def ModulatorSource.empty : ModulatorSource := ⟨0, 0, 0, false, 0⟩

/-- Source `_PresetHeader` record. -/
structure PresetHeader where
  name : String
  preset : Nat
  bank : Nat
  preset_bag_index : Nat
  library : Nat
  genre : Nat
  morphology : Nat
deriving DecidableEq, Repr

/-- Source `_Bag` record (a preset or instrument zone index pair). -/
structure Bag where
  generator_index : Nat
  modulator_index : Nat
deriving DecidableEq, Repr

/-- Source `ModulatorList` record. -/
structure ModRecord where
  source : ModulatorSource
  destination : Nat
  amount : Int
  amount_source : ModulatorSource
  transform : Nat
deriving DecidableEq, Repr

/-- Source `GeneratorList` record: a generator type and its packed two-byte
amount (`AmountType(0)` packs to two zero bytes). -/
structure GenRecord where
  operator : Nat
  amount : List Nat
deriving DecidableEq, Repr

/-- Source `_Sample` header record (`end` is a Lean keyword, rendered `stop`). -/
structure SampleRecord where
  name : String
  start : Nat
  stop : Nat
  start_loop : Nat
  end_loop : Nat
  sample_rate : Nat
  original_pitch : Nat
  pitch_correction : Int
  sample_link : Nat
  sample_type : Nat
deriving DecidableEq, Repr

/-- Source `_Instrument` record (an instrument name plus its bag index). -/
structure InstrumentName where
  name : String
  instrument_bag_index : Nat
deriving DecidableEq, Repr

/-- The state of `SoundFontBuilder`: the raw sample bytes and the nine
record lists. -/
structure SFBuilder where
  smpl : List Nat
  phdr : List PresetHeader
  pbag : List Bag
  pmod : List ModRecord
  pgen : List GenRecord
  inst : List InstrumentName
  ibag : List Bag
  imod : List ModRecord
  igen : List GenRecord
  shdr : List SampleRecord
deriving Repr

end Wolf3DExtractor

namespace Wolf3DExtractor

/-- Source `SoundFontBuilder.__init__`: every record list begins with exactly its
terminal record. -/
def SFBuilder.init : SFBuilder where
  smpl := []
  phdr := [⟨"EOP", 0, 0, 0, 0, 0, 0⟩]
  pbag := [⟨0, 0⟩]
  pmod := [⟨ModulatorSource.empty, 0, 0, ModulatorSource.empty, 0⟩]
  pgen := [⟨0, [0, 0]⟩]
  inst := [⟨"EOI", 0⟩]
  ibag := [⟨0, 0⟩]
  imod := [⟨ModulatorSource.empty, 0, 0, ModulatorSource.empty, 0⟩]
  igen := [⟨0, [0, 0]⟩]
  shdr := [⟨"EOS", 0, 0, 0, 0, 0, 0, 0, 0, 0⟩]

/-- Python's `list.insert(-1, x)`: insert immediately before the last
element (at position 0 when the list is empty). -/
def insertBeforeLast {α : Type} : List α → α → List α
  | [], x => [x]
  | [a], x => [x, a]
  | a :: b :: rest, x => a :: insertBeforeLast (b :: rest) x

/-- Source `SoundFontBuilder._add_records`: remembers `len(record_list) - 1` as
the returned index, then inserts each new record immediately before the
terminal record. -/
def add_records {α : Type} (record_list : List α) (records_to_add : List α) :
    List α × Nat :=
  (records_to_add.foldl insertBeforeLast record_list, record_list.length - 1)

/-- Source `SoundFontBuilder.add_preset`: validates name length and the preset
and bank numbers (`assert`s, modelled as `none`), inserts the header
before the terminal record with the current preset-bag index, and returns
the new preset's index (`len - 2`, skipping the terminal record). -/
def SFBuilder.add_preset (b : SFBuilder) (name : String) (preset bank : Nat) :
    Option (SFBuilder × Nat) :=
  if 0 < name.length ∧ name.length ≤ 20 ∧ preset ≤ 127 ∧ bank ≤ 128 then
    let phdr1 := insertBeforeLast b.phdr
      ⟨name, preset, bank, b.pbag.length - 1, 0, 0, 0⟩
    some ({ b with phdr := phdr1 }, phdr1.length - 2)
  else
    none

/-- Source `SoundFontBuilder.add_preset_zone`: modulators first, then
generators, then the bag pointing at the recorded indices. -/
def SFBuilder.add_preset_zone (b : SFBuilder) (generator : List GenRecord)
    (modulator : List ModRecord) : SFBuilder :=
  let pm := add_records b.pmod modulator
  let pg := add_records b.pgen generator
  let pb := add_records b.pbag [⟨pg.2, pm.2⟩]
  { b with pmod := pm.1, pgen := pg.1, pbag := pb.1 }

/-- Source `SoundFontBuilder.add_instrument`. -/
def SFBuilder.add_instrument (b : SFBuilder) (name : String) :
    SFBuilder × Nat :=
  let inst1 := insertBeforeLast b.inst ⟨name, b.ibag.length - 1⟩
  ({ b with inst := inst1 }, inst1.length - 2)

/-- Source `SoundFontBuilder.add_instrument_zone`: generators first, then
modulators, then the bag (the opposite inner order of the preset
variant). -/
def SFBuilder.add_instrument_zone (b : SFBuilder) (generator : List GenRecord)
    (modulator : List ModRecord) : SFBuilder :=
  let ig := add_records b.igen generator
  let im := add_records b.imod modulator
  let ib := add_records b.ibag [⟨ig.2, im.2⟩]
  { b with igen := ig.1, imod := im.1, ibag := ib.1 }

/-- Python's `records[-1].field = value`: update the last record in
place. -/
def updateLast {α : Type} : List α → (α → α) → List α
  | [], _ => []
  | [a], f => [f a]
  | a :: b :: rest, f => a :: updateLast (b :: rest) f

/-- The sentinel finalization at the top of `SoundFontBuilder.build`: the
terminal preset header and instrument records receive the current
bag-list lengths minus one, and each terminal bag receives the current
generator and modulator list lengths minus one — i.e. the live record
counts of those lists. -/
def SFBuilder.buildPrepare (b : SFBuilder) : SFBuilder :=
  { b with
      phdr := updateLast b.phdr
        (fun r => { r with preset_bag_index := b.pbag.length - 1 })
      pbag := updateLast b.pbag
        (fun r => { r with
            generator_index := b.pgen.length - 1
            modulator_index := b.pmod.length - 1 })
      inst := updateLast b.inst
        (fun r => { r with instrument_bag_index := b.ibag.length - 1 })
      ibag := updateLast b.ibag
        (fun r => { r with
            generator_index := b.igen.length - 1
            modulator_index := b.imod.length - 1 }) }

theorem insertBeforeLast_append {α : Type} (l : List α) (x a : α) :
    insertBeforeLast (l ++ [a]) x = l ++ [x, a] := by
  induction l with
  | nil => rfl
  | cons c rest ih =>
    cases rest with
    | nil => rfl
    | cons d rest2 =>
      show c :: insertBeforeLast ((d :: rest2) ++ [a]) x = c :: ((d :: rest2) ++ [x, a])
      rw [ih]

theorem insertBeforeLast_length {α : Type} (l : List α) (x : α) :
    (insertBeforeLast l x).length = l.length + 1 := by
  induction l with
  | nil => rfl
  | cons c rest ih =>
    cases rest with
    | nil => rfl
    | cons d rest2 =>
      show (c :: insertBeforeLast (d :: rest2) x).length = (c :: d :: rest2).length + 1
      simp only [List.length_cons, ih]

theorem insertBeforeLast_getLast? {α : Type} (l : List α) (x : α) (h : l ≠ []) :
    (insertBeforeLast l x).getLast? = l.getLast? := by
  obtain ⟨a, ha⟩ : ∃ a, l.getLast? = some a := by
    cases hl : l.getLast? with
    | none => exact absurd (List.getLast?_eq_none_iff.mp hl) h
    | some a => exact ⟨a, rfl⟩
  obtain ⟨ys, rfl⟩ := List.getLast?_eq_some_iff.mp ha
  rw [insertBeforeLast_append, ha]
  show (ys ++ [x, a]).getLast? = some a
  rw [show ys ++ [x, a] = (ys ++ [x]) ++ [a] by simp]
  exact List.getLast?_concat _

theorem updateLast_append {α : Type} (l : List α) (f : α → α) (a : α) :
    updateLast (l ++ [a]) f = l ++ [f a] := by
  induction l with
  | nil => rfl
  | cons c rest ih =>
    cases rest with
    | nil => rfl
    | cons d rest2 =>
      show c :: updateLast ((d :: rest2) ++ [a]) f = c :: ((d :: rest2) ++ [f a])
      rw [ih]

theorem updateLast_getLast? {α : Type} (l : List α) (f : α → α) (a : α)
    (h : l.getLast? = some a) :
    (updateLast l f).getLast? = some (f a) := by
  obtain ⟨ys, rfl⟩ := List.getLast?_eq_some_iff.mp h
  rw [updateLast_append]
  exact List.getLast?_concat _

end Wolf3DExtractor

namespace Wolf3DExtractor

/-- C6 counterexample: adding three presets grows the preset-*header*
list, not the preset-bag list — after three `add_preset` calls the
preset-bag list still has exactly 1 entry (its terminal record), not
4. -/
theorem C6_counterexample :
    ((SFBuilder.init.add_preset "A" 0 0).bind fun p1 =>
      (p1.1.add_preset "B" 1 0).bind fun p2 =>
        (p2.1.add_preset "C" 2 0).map fun p3 => p3.1.pbag.length) = some 1 ∧
    (1 : Nat) ≠ 4 :=
  ⟨rfl, by decide⟩

/-- C6 (corrected): every record list keeps its terminal sentinel last —
`add_preset`, `add_preset_zone` and `add_instrument` insert immediately
before it — and after adding 3 presets it is the preset-*header* list
that has 4 entries (3 live plus the terminal); the preset-bag list grows
only with zones.  At build time each terminal bag's generator and
modulator index fields equal the live generator and modulator record
counts of the corresponding lists. -/
theorem C6_sentinel_invariant :
    (∀ (b : SFBuilder) (name : String) (preset bank : Nat) (b1 : SFBuilder) (i : Nat),
      b.add_preset name preset bank = some (b1, i) →
        b1.phdr = insertBeforeLast b.phdr
          ⟨name, preset, bank, b.pbag.length - 1, 0, 0, 0⟩ ∧
        b1.phdr.length = b.phdr.length + 1 ∧
        (b.phdr ≠ [] → b1.phdr.getLast? = b.phdr.getLast?) ∧
        i = b.phdr.length - 1 ∧
        b1.pbag = b.pbag ∧ b1.pmod = b.pmod ∧ b1.pgen = b.pgen ∧
        b1.inst = b.inst ∧ b1.ibag = b.ibag ∧ b1.imod = b.imod ∧
        b1.igen = b.igen ∧ b1.shdr = b.shdr) ∧
    (∀ (b : SFBuilder) (g : List GenRecord) (m : List ModRecord),
      (b.add_preset_zone g m).pbag =
        insertBeforeLast b.pbag ⟨b.pgen.length - 1, b.pmod.length - 1⟩ ∧
      (b.pbag ≠ [] →
        (b.add_preset_zone g m).pbag.getLast? = b.pbag.getLast?)) ∧
    (∀ (b : SFBuilder) (name : String),
      (b.add_instrument name).1.inst =
        insertBeforeLast b.inst ⟨name, b.ibag.length - 1⟩ ∧
      (b.inst ≠ [] →
        (b.add_instrument name).1.inst.getLast? = b.inst.getLast?)) ∧
    ((SFBuilder.init.add_preset "A" 0 0).bind (fun p1 =>
      (p1.1.add_preset "B" 1 0).bind (fun p2 =>
        (p2.1.add_preset "C" 2 0).map (fun p3 => p3.1.phdr.length))) = some 4) ∧
    (∀ b : SFBuilder, b.pbag ≠ [] →
      (SFBuilder.buildPrepare b).pbag.getLast? =
        some ⟨b.pgen.length - 1, b.pmod.length - 1⟩) ∧
    (∀ b : SFBuilder, b.ibag ≠ [] →
      (SFBuilder.buildPrepare b).ibag.getLast? =
        some ⟨b.igen.length - 1, b.imod.length - 1⟩) := by
  refine ⟨?_, ?_, ?_, rfl, ?_, ?_⟩
  · intro b name preset bank b1 i h
    simp only [SFBuilder.add_preset] at h
    split at h
    · simp only [Option.some.injEq, Prod.mk.injEq] at h
      obtain ⟨hb1, hi⟩ := h
      subst hb1
      refine ⟨rfl, insertBeforeLast_length _ _, ?_, ?_, rfl, rfl, rfl, rfl, rfl,
        rfl, rfl, rfl⟩
      · intro hne
        exact insertBeforeLast_getLast? _ _ hne
      · rw [← hi]
        have := insertBeforeLast_length b.phdr
          (⟨name, preset, bank, b.pbag.length - 1, 0, 0, 0⟩ : PresetHeader)
        omega
    · exact Option.noConfusion h
  · intro b g m
    refine ⟨rfl, ?_⟩
    intro hne
    exact insertBeforeLast_getLast? _ _ hne
  · intro b name
    refine ⟨rfl, ?_⟩
    intro hne
    exact insertBeforeLast_getLast? _ _ hne
  · intro b h
    obtain ⟨a, ha⟩ : ∃ a, b.pbag.getLast? = some a := by
      cases hl : b.pbag.getLast? with
      | none => exact absurd (List.getLast?_eq_none_iff.mp hl) h
      | some a => exact ⟨a, rfl⟩
    rw [show (SFBuilder.buildPrepare b).pbag = updateLast b.pbag
      (fun r => { r with
          generator_index := b.pgen.length - 1
          modulator_index := b.pmod.length - 1 }) from rfl]
    rw [updateLast_getLast? _ _ a ha]
  · intro b h
    obtain ⟨a, ha⟩ : ∃ a, b.ibag.getLast? = some a := by
      cases hl : b.ibag.getLast? with
      | none => exact absurd (List.getLast?_eq_none_iff.mp hl) h
      | some a => exact ⟨a, rfl⟩
    rw [show (SFBuilder.buildPrepare b).ibag = updateLast b.ibag
      (fun r => { r with
          generator_index := b.igen.length - 1
          modulator_index := b.imod.length - 1 }) from rfl]
    rw [updateLast_getLast? _ _ a ha]

/-- Witness for `C6_sentinel_invariant`: on the freshly initialized
builder, finalization writes the live counts (zero) into the terminal
preset bag. -/
theorem C6_witness :
    (SFBuilder.buildPrepare SFBuilder.init).pbag.getLast? =
      some ⟨SFBuilder.init.pgen.length - 1, SFBuilder.init.pmod.length - 1⟩ :=
  C6_sentinel_invariant.2.2.2.2.1 SFBuilder.init (by decide)

end Wolf3DExtractor
